import Mathlib

/-
Verification of the PostgreSQL fuzzer bootstrap routine
(projects/postgresql/fuzzer/fuzzer_initialize.c).

The C file is a straight-line bootstrap: it builds three fixed-size
strings with snprintf, shells out to wipe-and-extract a data directory,
then runs a fixed sequence of engine-initialization calls, and finally
returns 0.  We embed it as a function from an environment (recording
which of the fatal collaborator calls succeed) to a run result: either
the process exits fatally mid-sequence, or the function returns, in
both cases together with the trace of executed steps and the final
process-global state.  Time is modelled by the event index of the
single-threaded trace, which is strictly monotone.
-/

namespace PGFuzz

/-! ## C strings and snprintf -/

/-- A C string modelled as its list of bytes (characters, ASCII). -/
abbrev CStr := List Char

/-- The snprintf used at lines 53-55: writes at most `size - 1` bytes of
the formatted string into the buffer plus a terminating NUL, truncating
silently. -/
def snprintfL (size : Nat) (s : CStr) : CStr :=
  s.take (size - 1)

/-- Leading bytes of the formatted path at line 53. -/
def tmpHead : CStr := "/tmp/".toList

/-- Trailing bytes of the formatted path at line 53. -/
def dataTail : CStr := "/data".toList

/-- Line 53: snprintf(arg_path, sizeof(arg_path), "/tmp/%s/data", dbname)
with a 50-byte buffer. -/
def arg_path (dbname : CStr) : CStr :=
  snprintfL 50 (tmpHead ++ dbname ++ dataTail)

/-- Line 54: snprintf(path_to_db, 50, "-D\"/tmp/%s/data\"", dbname). -/
def path_to_db (dbname : CStr) : CStr :=
  snprintfL 50 ("-D\"/tmp/".toList ++ dbname ++ "/data\"".toList)

/-- Line 55: the shell command built into the 100-byte buffer untar. -/
def untar (dbname : CStr) : CStr :=
  snprintfL 100 ("rm -rf /tmp/".toList ++ dbname
    ++ " && mkdir /tmp/".toList ++ dbname
    ++ " && tar -xvf data.tar.gz -C /tmp/".toList ++ dbname)

/-- Line 65: get_progname derives the canonical short program name, the
last component of the fixed binary path. -/
def get_progname (p : CStr) : CStr :=
  match (p.splitOn '/').getLast? with
  | some last => last
  | none => p

/-! ## Filesystem model for the Dataset Provisioner (lines 53-63)

The command run by system(untar) at line 63 is
  rm -rf /tmp/ID && mkdir /tmp/ID && tar -xvf data.tar.gz -C /tmp/ID .
Modelled from the spec: the shell, rm, mkdir and tar executables are
external collaborators (not part of this repository); per the spec the
step "recursively deletes any pre-existing directory at the target path,
recreates it, then extracts a compressed archive (found relative to the
process working directory) into it".  A filesystem is a finite list of
absolute paths (component lists) with their entries; the archive read
from the working directory is a list of relative paths with entries, or
missing. -/

/-- An absolute or relative filesystem path, as a list of components. -/
abbrev Path := List String

/-- A filesystem entry: a directory, or a file with its byte content. -/
inductive FEntry
  | dir
  | file (content : List Nat)
deriving DecidableEq, Repr

/-- A filesystem: a finite association of paths to entries. -/
abbrev FS := List (Path × FEntry)

/-- First entry recorded at path p, if any. -/
def lookupFS (fs : FS) (p : Path) : Option FEntry :=
  match fs with
  | [] => none
  | e :: rest => if e.1 = p then some e.2 else lookupFS rest p

/-- Whether p lies inside (or is) the directory base. -/
def isUnder (base p : Path) : Bool :=
  decide (p.take base.length = base)

/-- Effect of rm -rf base: every entry at or below base is removed. -/
def rmRf (base : Path) (fs : FS) : FS :=
  match fs with
  | [] => []
  | e :: rest => if isUnder base e.1 then rmRf base rest else e :: rmRf base rest

/-- Effect of mkdir p: fails if p exists or its parent is not a
directory, otherwise records a fresh directory at p. -/
def mkdirFS (p : Path) (fs : FS) : Option FS :=
  match lookupFS fs p with
  | some _ => none
  | none =>
    match lookupFS fs p.dropLast with
    | some FEntry.dir => some (fs ++ [(p, FEntry.dir)])
    | _ => none

/-- Entries an archive contributes when extracted under base. -/
def extractedEntries (base : Path) (a : List (Path × FEntry)) : FS :=
  a.map (fun e => (base ++ e.1, e.2))

/-- Splitting a command string at the shell conjunction separator,
with explicit fuel (the fuel is always instantiated with the length of
the string, which suffices; the zero-fuel non-empty case is
unreachable then). -/
def splitAmpF : Nat → CStr → List CStr
  | _, [] => [[]]
  | 0, c :: rest => [c :: rest]
  | fuel + 1, c :: rest =>
    if c = ' ' ∧ rest.take 3 = "&& ".toList then
      [] :: splitAmpF fuel (rest.drop 3)
    else
      match splitAmpF fuel rest with
      | [] => [[c]]
      | h :: t => (c :: h) :: t

/-- The pieces of a shell command separated by the conjunction
operator. -/
def splitAmp (s : CStr) : List CStr :=
  splitAmpF s.length s

/-- Strips a fixed leading byte sequence from a command, if present. -/
def dropPre (p c : CStr) : Option CStr :=
  if c.take p.length = p then some (c.drop p.length) else none

/-- Semantics of one conjunct of the provisioning command.
Modelled from the spec: rm, mkdir and tar are external collaborators;
rm -rf always succeeds and removes the tree, mkdir (without -p) fails
when the directory exists or the parent is missing, and tar fails when
the archive is missing or the target directory does not exist, else
extracts the archive entries under the target.  A conjunct of any
other shape (as produced by truncation) fails. -/
def runOneCmd (arch : Option (List (Path × FEntry))) (fs : FS)
    (c : CStr) : Option FS :=
  match dropPre "rm -rf /tmp/".toList c with
  | some idc => some (rmRf ["tmp", String.mk idc] fs)
  | none =>
    match dropPre "mkdir /tmp/".toList c with
    | some idc => mkdirFS ["tmp", String.mk idc] fs
    | none =>
      match dropPre "tar -xvf data.tar.gz -C /tmp/".toList c with
      | some idc =>
        match arch with
        | none => none
        | some a =>
          match lookupFS fs ["tmp", String.mk idc] with
          | some FEntry.dir =>
            some (fs ++ extractedEntries ["tmp", String.mk idc] a)
          | _ => none
      | none => none

/-- Left-to-right execution of the conjuncts: the shell conjunction
stops at the first failing command. -/
def runCmds (arch : Option (List (Path × FEntry))) (fs : FS) :
    List CStr → Bool × FS
  | [] => (true, fs)
  | c :: rest =>
    match runOneCmd arch fs c with
    | none => (false, fs)
    | some fs2 => runCmds arch fs2 rest

/-- One invocation of the provisioning step for identifier dbname:
system(untar) at line 63 runs exactly the byte string built (and
possibly truncated) by the snprintf at line 55 into the 100-byte
buffer.  The archive argument is the content of data.tar.gz in the
working directory, or none when the archive is missing.  Returns
whether the whole conjunction succeeded, and the resulting
filesystem. -/
def untarRun (dbname : CStr) (arch : Option (List (Path × FEntry)))
    (fs : FS) : Bool × FS :=
  runCmds arch fs (splitAmp (untar dbname))

/-- The directory tree rooted at base. -/
def subtree (base : Path) (fs : FS) : FS :=
  match fs with
  | [] => []
  | e :: rest => if isUnder base e.1 then e :: subtree base rest else subtree base rest

/-! ## Engine process-global state -/

/-- The processing modes of miscadmin.h; the process starts in
InitProcessing. -/
inductive ProcessingMode
  | BootstrapProcessing
  | InitProcessing
  | NormalProcessing
deriving DecidableEq, Repr

/-- The memory arenas (contexts) this bootstrap touches. -/
inductive MCtx
  | TopMemoryContext
  | ErrorContext
  | MessageContext
  | RowDescriptionContext
deriving DecidableEq, Repr

/-- A StringInfoData buffer: accumulated length, allocated capacity, and
the arena the buffer was allocated in. -/
structure StringInfoData where
  len : Nat
  maxlen : Nat
  ctx : MCtx
deriving DecidableEq, Repr

/-- Output destinations relevant here: whereToSendOutput starts as
DestDebug and is set to DestNone at line 104. -/
inductive Dest
  | DestDebug
  | DestNone
deriving DecidableEq, Repr

/-- Process-exit hooks that can be registered by this file. -/
inductive Hook
  | fuzzerExit
deriving DecidableEq, Repr

/-- The observable steps of the bootstrap, in source order. -/
inductive Ev
  | systemUntar
  | getPrognameCall
  | memoryContextInit
  | strdupUsername
  | initStandaloneProcess
  | setProcessingMode (m : ProcessingMode)
  | initializeGUCOptions
  | processPostgresSwitches
  | selectConfigFiles
  | checkDataDir
  | changeToDataDir
  | createDataDirLockFile
  | localProcessControlFile
  | initializeMaxBackends
  | baseInit
  | initProcess
  | pgSetMask
  | initPostgres
  | beginReportingGUCOptions
  | processSessionPreloadLibraries
  | allocSetContextCreate (c : MCtx)
  | memoryContextSwitchTo (c : MCtx)
  | initRowDescriptionBuf
  | setPgStartTime
  | setWhereToSendOutput
  | setLogDestination
  | exitUserResolutionFailure
  | exitDataDirFailure
  | exitLockFailure
  | exitSessionFailure
  | atexitRegister
deriving DecidableEq, Repr

/-- The process-global state the bootstrap manipulates. -/
structure PgState where
  progname : Option CStr
  contexts : List (MCtx × Option MCtx)
  cur : Option MCtx
  username : Option CStr
  freed : List CStr
  mode : ProcessingMode
  pgStartTime : Option Nat
  rowDescriptionBuf : Option StringInfoData
  exitHooks : List Hook
  whereToSendOutput : Dest
  logDest : Nat
  configFileDir : Option CStr
deriving DecidableEq, Repr

/-- State at entry of FuzzerInitialize: nothing initialized, the static
username pointer is NULL (line 41), mode is the engine default
InitProcessing, logging still at its stderr default. -/
def initState : PgState :=
  { progname := none
  , contexts := []
  , cur := none
  , username := none
  , freed := []
  , mode := ProcessingMode.InitProcessing
  , pgStartTime := none
  , rowDescriptionBuf := none
  , exitHooks := []
  , whereToSendOutput := Dest.DestDebug
  , logDest := 1
  , configFileDir := none }

/-- pfree of the pointed-to identity string: records the release. -/
def pfree (p : CStr) (s : PgState) : PgState :=
  { s with freed := s.freed ++ [p] }

/-- Lines 43-46: the exit hook.  It frees username when it is set; note
that it does not reset the pointer to NULL afterwards. -/
def fuzzer_exit (s : PgState) : PgState :=
  match s.username with
  | none => s
  | some p => pfree p s

/-- Environment of the run: which of the fatal collaborator calls
succeed.  userName is the OS identity get_user_name_or_exit resolves
(none makes it terminate the process); the three flags stand for
checkDataDir validation, lock-file acquisition, and
InitProcess/InitPostgres session setup succeeding. -/
structure Env where
  userName : Option CStr
  dataDirValid : Bool
  lockFree : Bool
  sessionOk : Bool
deriving DecidableEq, Repr

/-- Result of one execution of FuzzerInitialize: either the process
terminated fatally during the bootstrap, or the function returned. -/
inductive RunResult
  | exited (tr : List Ev) (s : PgState)
  | returned (ret : Int) (tr : List Ev) (s : PgState)
deriving DecidableEq, Repr

/-- Shallow embedding of FuzzerInitialize (lines 48-107), step by step
in source order.  Pure snprintf calls build the three strings; system
runs the untar command; each engine call is an event, with state
effects for the calls whose effects the later lines read.
GetCurrentTimestamp at line 103 is modelled as the current event index
(single-threaded execution, strictly monotone clock). -/
def FuzzerInitializeRun (env : Env) (dbname : CStr) : RunResult :=
  let s0 := initState
  let tr0 : List Ev := [Ev.systemUntar]
  let s1 := { s0 with
    progname := some (get_progname "tmp_install/usr/local/pgsql/bin/postgres".toList) }
  let tr1 := tr0 ++ [Ev.getPrognameCall]
  let s2 := { s1 with
    contexts := [(MCtx.TopMemoryContext, none),
                 (MCtx.ErrorContext, some MCtx.TopMemoryContext)]
  , cur := some MCtx.TopMemoryContext }
  let tr2 := tr1 ++ [Ev.memoryContextInit]
  match env.userName with
  | none => RunResult.exited (tr2 ++ [Ev.exitUserResolutionFailure]) s2
  | some u =>
    let s3 := { s2 with username := some u }
    let tr3 := tr2 ++ [Ev.strdupUsername]
    let tr4 := tr3 ++ [Ev.initStandaloneProcess]
    let s5 := { s3 with mode := ProcessingMode.InitProcessing }
    let tr5 := tr4 ++ [Ev.setProcessingMode ProcessingMode.InitProcessing]
    let tr6 := tr5 ++ [Ev.initializeGUCOptions]
    let tr7 := tr6 ++ [Ev.processPostgresSwitches]
    let s8 := { s5 with configFileDir := some (arg_path dbname) }
    let tr8 := tr7 ++ [Ev.selectConfigFiles]
    if env.dataDirValid then
      let tr9 := tr8 ++ [Ev.checkDataDir]
      let tr10 := tr9 ++ [Ev.changeToDataDir]
      if env.lockFree then
        let tr11 := tr10 ++ [Ev.createDataDirLockFile]
        let tr12 := tr11 ++ [Ev.localProcessControlFile]
        let tr13 := tr12 ++ [Ev.initializeMaxBackends]
        let tr14 := tr13 ++ [Ev.baseInit]
        let tr15 := tr14 ++ [Ev.initProcess]
        let tr16 := tr15 ++ [Ev.pgSetMask]
        if env.sessionOk then
          let tr17 := tr16 ++ [Ev.initPostgres]
          let s18 := { s8 with mode := ProcessingMode.NormalProcessing }
          let tr18 := tr17 ++ [Ev.setProcessingMode ProcessingMode.NormalProcessing]
          let tr19 := tr18 ++ [Ev.beginReportingGUCOptions]
          let tr20 := tr19 ++ [Ev.processSessionPreloadLibraries]
          let s21 := { s18 with
            contexts := s18.contexts ++ [(MCtx.MessageContext, some MCtx.TopMemoryContext)] }
          let tr21 := tr20 ++ [Ev.allocSetContextCreate MCtx.MessageContext]
          let s22 := { s21 with
            contexts := s21.contexts ++ [(MCtx.RowDescriptionContext, some MCtx.TopMemoryContext)] }
          let tr22 := tr21 ++ [Ev.allocSetContextCreate MCtx.RowDescriptionContext]
          let s23 := { s22 with cur := some MCtx.RowDescriptionContext }
          let tr23 := tr22 ++ [Ev.memoryContextSwitchTo MCtx.RowDescriptionContext]
          let s24 := { s23 with
            rowDescriptionBuf := some { len := 0, maxlen := 1024
                                      , ctx := MCtx.RowDescriptionContext } }
          let tr24 := tr23 ++ [Ev.initRowDescriptionBuf]
          let s25 := { s24 with cur := some MCtx.TopMemoryContext }
          let tr25 := tr24 ++ [Ev.memoryContextSwitchTo MCtx.TopMemoryContext]
          let s26 := { s25 with pgStartTime := some tr25.length }
          let tr26 := tr25 ++ [Ev.setPgStartTime]
          let s27 := { s26 with whereToSendOutput := Dest.DestNone }
          let tr27 := tr26 ++ [Ev.setWhereToSendOutput]
          let s28 := { s27 with logDest := 0 }
          let tr28 := tr27 ++ [Ev.setLogDestination]
          let s29 := { s28 with exitHooks := s28.exitHooks ++ [Hook.fuzzerExit] }
          let tr29 := tr28 ++ [Ev.atexitRegister]
          RunResult.returned 0 tr29 s29
        else RunResult.exited (tr16 ++ [Ev.exitSessionFailure]) s8
      else RunResult.exited (tr10 ++ [Ev.exitLockFailure]) s8
    else RunResult.exited (tr8 ++ [Ev.exitDataDirFailure]) s8

/-- The trace of a run, whether it returned or exited. -/
def traceOf (env : Env) (dbname : CStr) : List Ev :=
  match FuzzerInitializeRun env dbname with
  | RunResult.exited tr _ => tr
  | RunResult.returned _ tr _ => tr

/-- Index of the first occurrence of an event in a trace (trace length
when absent). -/
def evIdx (e : Ev) (tr : List Ev) : Nat :=
  tr.findIdx (fun x => x == e)

/-- Processing mode after executing a list of steps, starting from the
engine default InitProcessing. -/
def modeAfter (tr : List Ev) : ProcessingMode :=
  tr.foldl (fun m e =>
    match e with
    | Ev.setProcessingMode m2 => m2
    | _ => m) ProcessingMode.InitProcessing

/-- Currently selected arena after executing a list of steps. -/
def curAfter (tr : List Ev) : Option MCtx :=
  tr.foldl (fun c e =>
    match e with
    | Ev.memoryContextInit => some MCtx.TopMemoryContext
    | Ev.memoryContextSwitchTo m => some m
    | _ => c) none

/-- Steps that perform dynamic allocation. -/
def isAllocEv (e : Ev) : Bool :=
  match e with
  | Ev.strdupUsername => true
  | Ev.allocSetContextCreate _ => true
  | Ev.initRowDescriptionBuf => true
  | _ => false

/-- Steps that change the current-arena selection. -/
def isSwitchEv (e : Ev) : Bool :=
  match e with
  | Ev.memoryContextInit => true
  | Ev.memoryContextSwitchTo _ => true
  | _ => false

/-! ## Characterization of all possible runs -/

/-- The trace of every run that reaches the return statement. -/
def stdTrace : List Ev :=
  [ Ev.systemUntar
  , Ev.getPrognameCall
  , Ev.memoryContextInit
  , Ev.strdupUsername
  , Ev.initStandaloneProcess
  , Ev.setProcessingMode ProcessingMode.InitProcessing
  , Ev.initializeGUCOptions
  , Ev.processPostgresSwitches
  , Ev.selectConfigFiles
  , Ev.checkDataDir
  , Ev.changeToDataDir
  , Ev.createDataDirLockFile
  , Ev.localProcessControlFile
  , Ev.initializeMaxBackends
  , Ev.baseInit
  , Ev.initProcess
  , Ev.pgSetMask
  , Ev.initPostgres
  , Ev.setProcessingMode ProcessingMode.NormalProcessing
  , Ev.beginReportingGUCOptions
  , Ev.processSessionPreloadLibraries
  , Ev.allocSetContextCreate MCtx.MessageContext
  , Ev.allocSetContextCreate MCtx.RowDescriptionContext
  , Ev.memoryContextSwitchTo MCtx.RowDescriptionContext
  , Ev.initRowDescriptionBuf
  , Ev.memoryContextSwitchTo MCtx.TopMemoryContext
  , Ev.setPgStartTime
  , Ev.setWhereToSendOutput
  , Ev.setLogDestination
  , Ev.atexitRegister ]

/-- Trace of a run where identity resolution fails. -/
def failTraceUser : List Ev :=
  stdTrace.take 3 ++ [Ev.exitUserResolutionFailure]

/-- Trace of a run where data-directory validation fails. -/
def failTraceDataDir : List Ev :=
  stdTrace.take 9 ++ [Ev.exitDataDirFailure]

/-- Trace of a run where lock-file acquisition fails. -/
def failTraceLock : List Ev :=
  stdTrace.take 11 ++ [Ev.exitLockFailure]

/-- Trace of a run where process/session initialization fails. -/
def failTraceSession : List Ev :=
  stdTrace.take 17 ++ [Ev.exitSessionFailure]

/-- The final state of every run that reaches the return statement. -/
def stdStateFor (env : Env) (db : CStr) : PgState :=
  { progname := some "postgres".toList
  , contexts := [ (MCtx.TopMemoryContext, none)
                , (MCtx.ErrorContext, some MCtx.TopMemoryContext)
                , (MCtx.MessageContext, some MCtx.TopMemoryContext)
                , (MCtx.RowDescriptionContext, some MCtx.TopMemoryContext) ]
  , cur := some MCtx.TopMemoryContext
  , username := env.userName
  , freed := []
  , mode := ProcessingMode.NormalProcessing
  , pgStartTime := some 26
  , rowDescriptionBuf := some { len := 0, maxlen := 1024
                              , ctx := MCtx.RowDescriptionContext }
  , exitHooks := [Hook.fuzzerExit]
  , whereToSendOutput := Dest.DestNone
  , logDest := 0
  , configFileDir := some (arg_path db) }

/-- A fully successful environment, for concrete instantiations. -/
def env0 : Env :=
  { userName := some "postgres".toList
  , dataDirValid := true
  , lockFree := true
  , sessionOk := true }

/-- The identifier of the spec scenario. -/
def db0 : CStr := "fz1".toList

/-- A state in which identity resolution has completed. -/
def cexState : PgState :=
  { initState with username := some "postgres".toList }

/-- Concrete filesystem for instantiations: /tmp exists, a stale
provisioned directory with junk content is present. -/
def fs0 : FS :=
  [ (["tmp"], FEntry.dir)
  , (["tmp", "fz1"], FEntry.dir)
  , (["tmp", "fz1", "junk"], FEntry.file [7]) ]

/-- Concrete archive content for instantiations: a data directory with
a version file. -/
def arch0 : List (Path × FEntry) :=
  [ (["data"], FEntry.dir)
  , (["data", "PG_VERSION"], FEntry.file [49, 50]) ]

/-- Identifier long enough that the formatted path including its NUL
exceeds the 50-byte buffer. -/
def longId : CStr := List.replicate 45 'a'

/-- Identifier of 14 bytes: the provisioning command for it is 102
bytes and is truncated by the 100-byte snprintf at line 55, cutting
the final 3 bytes off the tar target. -/
def longId14 : CStr := List.replicate 14 'a'

/-- Two distinct identifiers agreeing on their first 44 bytes. -/
def collideA : CStr := List.replicate 44 'a' ++ ['b']

/-- Second of the two colliding identifiers. -/
def collideB : CStr := List.replicate 44 'a' ++ ['c']

theorem run_returned_char (env : Env) (db : CStr) (r : Int) (tr : List Ev)
    (s : PgState) (h : FuzzerInitializeRun env db = RunResult.returned r tr s) :
    r = 0 ∧ tr = stdTrace ∧ s = stdStateFor env db := by
  obtain ⟨u, d, l, k⟩ := env
  cases u <;> cases d <;> cases l <;> cases k <;>
    first
      | (injection h
         done)
      | (injection h with h1 h2 h3
         exact ⟨h1.symm, h2.symm, h3.symm⟩)

theorem run_exited_char (env : Env) (db : CStr) (tr : List Ev)
    (s : PgState) (h : FuzzerInitializeRun env db = RunResult.exited tr s) :
    (tr = failTraceUser ∨ tr = failTraceDataDir ∨ tr = failTraceLock ∨
      tr = failTraceSession) ∧ s.exitHooks = [] := by
  obtain ⟨u, d, l, k⟩ := env
  cases u <;> cases d <;> cases l <;> cases k <;>
    first
      | (injection h
         done)
      | (injection h with h1 h2
         subst h2
         refine ⟨?_, rfl⟩
         first
           | exact Or.inl h1.symm
           | exact Or.inr (Or.inl h1.symm)
           | exact Or.inr (Or.inr (Or.inl h1.symm))
           | exact Or.inr (Or.inr (Or.inr h1.symm)))

theorem traceOf_cases (env : Env) (db : CStr) :
    traceOf env db = failTraceUser ∨ traceOf env db = failTraceDataDir ∨
    traceOf env db = failTraceLock ∨ traceOf env db = failTraceSession ∨
    traceOf env db = stdTrace := by
  obtain ⟨u, d, l, k⟩ := env
  cases u <;> cases d <;> cases l <;> cases k <;>
    first
      | exact Or.inl rfl
      | exact Or.inr (Or.inl rfl)
      | exact Or.inr (Or.inr (Or.inl rfl))
      | exact Or.inr (Or.inr (Or.inr (Or.inl rfl)))
      | exact Or.inr (Or.inr (Or.inr (Or.inr rfl)))

/-! ## Provisioner lemmas -/

theorem isUnder_self (base : Path) : isUnder base base = true := by
  simp [isUnder]

theorem isUnder_extend (base p : Path) : isUnder base (base ++ p) = true := by
  simp [isUnder, List.take_left]

theorem isUnder_parent (idStr : String) :
    isUnder ["tmp", idStr] ["tmp"] = false := by
  simp [isUnder, List.take]

theorem lookupFS_rmRf_of_out (base k : Path) (hk : isUnder base k = false)
    (fs : FS) : lookupFS (rmRf base fs) k = lookupFS fs k := by
  induction fs with
  | nil => rfl
  | cons e rest ih =>
    by_cases he : isUnder base e.1
    · have hek : ¬ e.1 = k := by
        intro hc
        rw [hc] at he
        rw [he] at hk
        simp at hk
      simp [rmRf, he, lookupFS, hek, ih]
    · simp only [rmRf, if_neg he]
      by_cases hek : e.1 = k
      · simp [lookupFS, hek]
      · simp [lookupFS, hek, ih]

theorem lookupFS_rmRf_of_under (base k : Path) (hk : isUnder base k = true)
    (fs : FS) : lookupFS (rmRf base fs) k = none := by
  induction fs with
  | nil => rfl
  | cons e rest ih =>
    by_cases he : isUnder base e.1
    · simp [rmRf, he, ih]
    · have hek : ¬ e.1 = k := by
        intro hc
        rw [hc, hk] at he
        exact he rfl
      simp [rmRf, he, lookupFS, hek, ih]

theorem lookupFS_append (l1 l2 : FS) (k : Path) :
    lookupFS (l1 ++ l2) k =
      (match lookupFS l1 k with
       | some v => some v
       | none => lookupFS l2 k) := by
  induction l1 with
  | nil => rfl
  | cons e rest ih =>
    by_cases hek : e.1 = k
    · simp [lookupFS, hek]
    · simp [lookupFS, hek, ih]

theorem subtree_rmRf (base : Path) (fs : FS) :
    subtree base (rmRf base fs) = [] := by
  induction fs with
  | nil => rfl
  | cons e rest ih =>
    by_cases he : isUnder base e.1
    · simp [rmRf, he, ih]
    · simp [rmRf, he, subtree, ih]

theorem subtree_append (base : Path) (l1 l2 : FS) :
    subtree base (l1 ++ l2) = subtree base l1 ++ subtree base l2 := by
  induction l1 with
  | nil => rfl
  | cons e rest ih =>
    by_cases he : isUnder base e.1
    · simp [subtree, he, ih]
    · simp [subtree, he, ih]

theorem subtree_extracted (base : Path) (a : List (Path × FEntry)) :
    subtree base (extractedEntries base a) = extractedEntries base a := by
  induction a with
  | nil => rfl
  | cons x rest ih =>
    simp only [extractedEntries, List.map_cons, subtree, isUnder_extend, if_pos]
    simp only [extractedEntries] at ih
    rw [ih]

/-! ### Parsing the (possibly truncated) command string -/

theorem head_of_take3 (l : CStr) (h : l.take 3 = "&& ".toList) :
    l.head? = some '&' := by
  cases l with
  | nil => simp at h
  | cons x xs =>
    have e : (x :: xs).take 3 = x :: xs.take 2 := rfl
    rw [e] at h
    injection h with h1 _
    simp [h1]

theorem head_take_eq (c : CStr) (n : Nat) (hn : 0 < n) :
    (c.take n).head? = c.head? := by
  cases c with
  | nil => simp
  | cons x xs =>
    cases n with
    | zero => omega
    | succ m => rfl

theorem splitAmpF_congr : ∀ (f1 f2 : Nat) (s : CStr), s.length ≤ f1 →
    s.length ≤ f2 → splitAmpF f1 s = splitAmpF f2 s := by
  intro f1
  induction f1 with
  | zero =>
    intro f2 s h1 _
    have hs : s = [] := List.eq_nil_of_length_eq_zero (Nat.le_zero.mp h1)
    subst hs
    cases f2 <;> rfl
  | succ f ih =>
    intro f2 s h1 h2
    cases s with
    | nil => cases f2 <;> rfl
    | cons c rest =>
      have ec : (c :: rest).length = rest.length + 1 := rfl
      cases f2 with
      | zero => omega
      | succ g =>
        have h1' : rest.length ≤ f := by omega
        have h2' : rest.length ≤ g := by omega
        simp only [splitAmpF]
        by_cases hc : c = ' ' ∧ rest.take 3 = "&& ".toList
        · rw [if_pos hc, if_pos hc, ih g (rest.drop 3)
            (by simp only [List.length_drop]; omega)
            (by simp only [List.length_drop]; omega)]
        · rw [if_neg hc, if_neg hc, ih g rest h1' h2']

theorem splitAmpF_noamp : ∀ (a : CStr) (fuel : Nat), a.length ≤ fuel →
    (∀ c ∈ a, c ≠ '&') → splitAmpF fuel a = [a] := by
  intro a
  induction a with
  | nil =>
    intro fuel _ _
    cases fuel <;> rfl
  | cons x a' ih =>
    intro fuel h1 hs
    have ec : (x :: a').length = a'.length + 1 := rfl
    cases fuel with
    | zero => omega
    | succ f =>
      have hcond : ¬ (x = ' ' ∧ a'.take 3 = "&& ".toList) := by
        rintro ⟨-, h3⟩
        have hh := head_of_take3 a' h3
        cases a' with
        | nil => simp at hh
        | cons y ys =>
          have hy : y = '&' := by
            have e : (some y : Option Char) = some '&' := hh
            injection e
          exact (hs y (by simp)) hy
      have hlen' : a'.length ≤ f := by omega
      have hs' : ∀ c ∈ a', c ≠ '&' := fun c hc => hs c (by simp [hc])
      simp only [splitAmpF]
      rw [if_neg hcond, ih f hlen' hs']

theorem splitAmpF_sep : ∀ (a t : CStr) (fuel : Nat),
    a.length + 4 + t.length ≤ fuel → (∀ c ∈ a, c ≠ '&') →
    splitAmpF fuel (a ++ (" && ".toList ++ t)) =
      a :: splitAmpF t.length t := by
  intro a
  induction a with
  | nil =>
    intro t fuel h1 _
    cases fuel with
    | zero => omega
    | succ f =>
      have hlen : t.length ≤ f := by
        have e0 : List.length ([] : CStr) = 0 := rfl
        omega
      have estep : splitAmpF (f + 1) (([] : CStr) ++ (" && ".toList ++ t)) =
          [] :: splitAmpF f t := rfl
      rw [estep, splitAmpF_congr f t.length t hlen le_rfl]
  | cons x a' ih =>
    intro t fuel h1 hs
    have ec : (x :: a').length = a'.length + 1 := rfl
    cases fuel with
    | zero => omega
    | succ f =>
      have hcond : ¬ (x = ' ' ∧
          ((a' ++ (" && ".toList ++ t) : CStr)).take 3 = "&& ".toList) := by
        rintro ⟨-, h3⟩
        have hh := head_of_take3 _ h3
        cases a' with
        | nil =>
          have e : (some ' ' : Option Char) = some '&' := hh
          exact absurd e (by decide)
        | cons y ys =>
          have hy : y = '&' := by
            have e : (some y : Option Char) = some '&' := hh
            injection e
          exact (hs y (by simp)) hy
      have hlen' : a'.length + 4 + t.length ≤ f := by omega
      have hs' : ∀ c ∈ a', c ≠ '&' := fun c hc => hs c (by simp [hc])
      show splitAmpF (f + 1) (x :: (a' ++ (" && ".toList ++ t))) =
        (x :: a') :: splitAmpF t.length t
      simp only [splitAmpF]
      rw [if_neg hcond, ih t f hlen' hs']

theorem untar_short (db : CStr) (h : db.length ≤ 13) :
    untar db = "rm -rf /tmp/".toList ++ db ++ " && mkdir /tmp/".toList ++ db
      ++ " && tar -xvf data.tar.gz -C /tmp/".toList ++ db := by
  simp only [untar, snprintfL]
  apply List.take_of_length_le
  have e1 : ("rm -rf /tmp/".toList : CStr).length = 12 := rfl
  have e2 : (" && mkdir /tmp/".toList : CStr).length = 15 := rfl
  have e3 : (" && tar -xvf data.tar.gz -C /tmp/".toList : CStr).length = 33 := rfl
  simp only [List.length_append, e1, e2, e3]
  omega

theorem splitAmp_untar (db : CStr) (hlen : db.length ≤ 13)
    (hsafe : ∀ c ∈ db, c.isAlphanum = true) :
    splitAmp (untar db) =
      [ "rm -rf /tmp/".toList ++ db
      , "mkdir /tmp/".toList ++ db
      , "tar -xvf data.tar.gz -C /tmp/".toList ++ db ] := by
  have hnamp : ∀ c ∈ db, c ≠ '&' := by
    intro c hc hcamp
    have hn := hsafe c hc
    rw [hcamp] at hn
    exact absurd hn (by decide)
  have h1 : ∀ c ∈ ("rm -rf /tmp/".toList ++ db : CStr), c ≠ '&' := by
    intro c hc
    rcases List.mem_append.mp hc with h | h
    · have hlit : ∀ x ∈ ("rm -rf /tmp/".toList : CStr), x ≠ '&' := by decide
      exact hlit c h
    · exact hnamp c h
  have h2 : ∀ c ∈ ("mkdir /tmp/".toList ++ db : CStr), c ≠ '&' := by
    intro c hc
    rcases List.mem_append.mp hc with h | h
    · have hlit : ∀ x ∈ ("mkdir /tmp/".toList : CStr), x ≠ '&' := by decide
      exact hlit c h
    · exact hnamp c h
  have h3 : ∀ c ∈ ("tar -xvf data.tar.gz -C /tmp/".toList ++ db : CStr), c ≠ '&' := by
    intro c hc
    rcases List.mem_append.mp hc with h | h
    · have hlit : ∀ x ∈ ("tar -xvf data.tar.gz -C /tmp/".toList : CStr),
          x ≠ '&' := by decide
      exact hlit c h
    · exact hnamp c h
  rw [untar_short db hlen]
  have e2 : (" && mkdir /tmp/".toList : CStr) =
      " && ".toList ++ "mkdir /tmp/".toList := rfl
  have e3 : (" && tar -xvf data.tar.gz -C /tmp/".toList : CStr) =
      " && ".toList ++ "tar -xvf data.tar.gz -C /tmp/".toList := rfl
  rw [e2, e3]
  have eassoc : ("rm -rf /tmp/".toList ++ db
        ++ (" && ".toList ++ "mkdir /tmp/".toList) ++ db
        ++ (" && ".toList ++ "tar -xvf data.tar.gz -C /tmp/".toList) ++ db : CStr)
      = ("rm -rf /tmp/".toList ++ db)
        ++ (" && ".toList ++ (("mkdir /tmp/".toList ++ db)
          ++ (" && ".toList ++ ("tar -xvf data.tar.gz -C /tmp/".toList ++ db)))) := by
    simp [List.append_assoc]
  rw [eassoc]
  have hsep : ((" && ".toList : CStr)).length = 4 := rfl
  unfold splitAmp
  rw [splitAmpF_sep _ _ _ (by simp only [List.length_append, hsep]; omega) h1]
  rw [splitAmpF_sep _ _ _ (by simp only [List.length_append, hsep]; omega) h2]
  rw [splitAmpF_noamp _ _ le_rfl h3]

/-! ### Interpreting the three conjuncts -/

theorem dropPre_eq_some (pre rest : CStr) :
    dropPre pre (pre ++ rest) = some rest := by
  simp [dropPre, List.take_left, List.drop_left]

theorem dropPre_none_of_head (pre c : CStr) (h0 : 0 < pre.length)
    (hh : c.head? ≠ pre.head?) : dropPre pre c = none := by
  have h' : ¬ (c.take pre.length = pre) := by
    intro heq
    apply hh
    have hq := congrArg List.head? heq
    rw [head_take_eq c pre.length h0] at hq
    exact hq
  simp [dropPre, h']

theorem runOneCmd_rm (arch : Option (List (Path × FEntry))) (fs : FS)
    (db : CStr) :
    runOneCmd arch fs ("rm -rf /tmp/".toList ++ db) =
      some (rmRf ["tmp", String.mk db] fs) := by
  simp only [runOneCmd, dropPre_eq_some]

theorem runOneCmd_mkdir (arch : Option (List (Path × FEntry))) (fs : FS)
    (db : CStr) :
    runOneCmd arch fs ("mkdir /tmp/".toList ++ db) =
      mkdirFS ["tmp", String.mk db] fs := by
  have hn : dropPre "rm -rf /tmp/".toList ("mkdir /tmp/".toList ++ db) = none := by
    apply dropPre_none_of_head
    · decide
    · show (some 'm' : Option Char) ≠ some 'r'
      decide
  simp only [runOneCmd, hn, dropPre_eq_some]

theorem runOneCmd_tar (fs : FS) (db : CStr) (a : List (Path × FEntry))
    (hdir : lookupFS fs ["tmp", String.mk db] = some FEntry.dir) :
    runOneCmd (some a) fs ("tar -xvf data.tar.gz -C /tmp/".toList ++ db) =
      some (fs ++ extractedEntries ["tmp", String.mk db] a) := by
  have hn1 : dropPre "rm -rf /tmp/".toList
      ("tar -xvf data.tar.gz -C /tmp/".toList ++ db) = none := by
    apply dropPre_none_of_head
    · decide
    · show (some 't' : Option Char) ≠ some 'r'
      decide
  have hn2 : dropPre "mkdir /tmp/".toList
      ("tar -xvf data.tar.gz -C /tmp/".toList ++ db) = none := by
    apply dropPre_none_of_head
    · decide
    · show (some 't' : Option Char) ≠ some 'm'
      decide
  simp only [runOneCmd, hn1, hn2, dropPre_eq_some, hdir]

/-- One successful provisioning run, in closed form: for an identifier
short enough (at most 13 bytes, so that the 100-byte buffer holds the
command untruncated) and shell- and path-safe (alphanumeric bytes),
whenever /tmp is a directory the run succeeds and produces the wiped
filesystem extended with the fresh directory and the extracted archive
entries. -/
theorem untarRun_eq (db : CStr) (a : List (Path × FEntry)) (fs : FS)
    (hlen : db.length ≤ 13) (hsafe : ∀ c ∈ db, c.isAlphanum = true)
    (hparent : lookupFS fs ["tmp"] = some FEntry.dir) :
    untarRun db (some a) fs =
      (true, rmRf ["tmp", String.mk db] fs
        ++ [(["tmp", String.mk db], FEntry.dir)]
        ++ extractedEntries ["tmp", String.mk db] a) := by
  have h1 : lookupFS (rmRf ["tmp", String.mk db] fs) ["tmp", String.mk db] = none :=
    lookupFS_rmRf_of_under _ _ (isUnder_self _) fs
  have h2 : lookupFS (rmRf ["tmp", String.mk db] fs) ["tmp"] = some FEntry.dir := by
    rw [lookupFS_rmRf_of_out _ _ (isUnder_parent (String.mk db)) fs]
    exact hparent
  have hmk : mkdirFS ["tmp", String.mk db] (rmRf ["tmp", String.mk db] fs) =
      some (rmRf ["tmp", String.mk db] fs
        ++ [(["tmp", String.mk db], FEntry.dir)]) := by
    simp [mkdirFS, h1, h2]
  have hdir2 : lookupFS (rmRf ["tmp", String.mk db] fs
      ++ [(["tmp", String.mk db], FEntry.dir)]) ["tmp", String.mk db] =
      some FEntry.dir := by
    rw [lookupFS_append, h1]
    simp [lookupFS]
  unfold untarRun
  rw [splitAmp_untar db hlen hsafe]
  simp only [runCmds, runOneCmd_rm, runOneCmd_mkdir, hmk,
    runOneCmd_tar _ db a hdir2]

/-- C3, as stated over every identifier, is false on the code: for the
14-byte identifier the command built at line 55 is 102 bytes and the
snprintf truncation to 99 bytes cuts the last 3 bytes off the tar
target, so the provisioning run fails and extracts nothing into
/tmp/{identifier} (the wiped directory stays empty instead of holding
the archive tree). -/
theorem C3_truncation_counterexample :
    (untar longId14).length = 99 ∧
    (untarRun longId14 (some arch0) fs0).1 ≠ true ∧
    subtree ["tmp", String.mk longId14] (untarRun longId14 (some arch0) fs0).2 =
      [(["tmp", String.mk longId14], FEntry.dir)] ∧
    subtree ["tmp", String.mk longId14] (untarRun longId14 (some arch0) fs0).2 ≠
      (["tmp", String.mk longId14], FEntry.dir)
        :: extractedEntries ["tmp", String.mk longId14] arch0 := by
  decide

/-- C3 (amended): for every identifier of at most 13 alphanumeric
bytes -- so that the 100-byte untar buffer holds the wipe-and-extract
command untruncated -- provisioning unconditionally wipes any
pre-existing directory at /tmp/{identifier}, recreates it and extracts
the archive into it; when /tmp exists and the archive is present, the
run succeeds, running it a second time succeeds as well, both runs
leave the identical directory tree at /tmp/{identifier}, and that tree
is exactly the fresh directory plus the archive contents, independent
of what was there before.  (For identifiers of 14 bytes or more the
truncation mangles or drops the tar step and this fails.) -/
theorem C3_provision_idempotent (db : CStr) (fs : FS)
    (a : List (Path × FEntry))
    (hlen : db.length ≤ 13) (hsafe : ∀ c ∈ db, c.isAlphanum = true)
    (hparent : lookupFS fs ["tmp"] = some FEntry.dir) :
    (untarRun db (some a) fs).1 = true ∧
    (untarRun db (some a) (untarRun db (some a) fs).2).1 = true ∧
    subtree ["tmp", String.mk db] (untarRun db (some a) fs).2 =
      (["tmp", String.mk db], FEntry.dir)
        :: extractedEntries ["tmp", String.mk db] a ∧
    subtree ["tmp", String.mk db]
        (untarRun db (some a) (untarRun db (some a) fs).2).2 =
      subtree ["tmp", String.mk db] (untarRun db (some a) fs).2 := by
  have hrun1 := untarRun_eq db a fs hlen hsafe hparent
  have hparent2 : lookupFS (untarRun db (some a) fs).2 ["tmp"] =
      some FEntry.dir := by
    rw [hrun1]
    rw [lookupFS_append, lookupFS_append]
    rw [lookupFS_rmRf_of_out _ _ (isUnder_parent (String.mk db)) fs, hparent]
  have hrun2 := untarRun_eq db a _ hlen hsafe hparent2
  have hsub : ∀ g : FS,
      subtree ["tmp", String.mk db]
        (rmRf ["tmp", String.mk db] g ++ [(["tmp", String.mk db], FEntry.dir)]
          ++ extractedEntries ["tmp", String.mk db] a) =
      (["tmp", String.mk db], FEntry.dir)
        :: extractedEntries ["tmp", String.mk db] a := by
    intro g
    rw [subtree_append, subtree_append, subtree_rmRf, subtree_extracted]
    simp [subtree, isUnder_self]
  refine ⟨by rw [hrun1], by rw [hrun2], ?_, ?_⟩
  · rw [hrun1]
    exact hsub fs
  · rw [hrun2, hrun1]
    rw [hsub _, hsub _]

/-- C3 witness: the concrete filesystem with a stale provisioned
directory, provisioned twice with the concrete archive under the
3-byte alphanumeric identifier of the spec scenario. -/
theorem C3_provision_idempotent_witness :
    (untarRun db0 (some arch0) fs0).1 = true ∧
    subtree ["tmp", String.mk db0]
        (untarRun db0 (some arch0) (untarRun db0 (some arch0) fs0).2).2 =
      subtree ["tmp", String.mk db0] (untarRun db0 (some arch0) fs0).2 :=
  ⟨(C3_provision_idempotent db0 fs0 arch0 (by decide) (by decide) (by decide)).1,
   (C3_provision_idempotent db0 fs0 arch0 (by decide) (by decide) (by decide)).2.2.2⟩

/-! ## snprintf lemmas -/

theorem arg_path_long (a : CStr) (ha : 44 ≤ a.length) :
    arg_path a = tmpHead ++ a.take 44 := by
  have h5 : tmpHead.length = 5 := rfl
  simp only [arg_path, snprintfL]
  rw [List.append_assoc, List.take_append_eq_append_take,
    List.take_of_length_le (by rw [h5]; omega), h5]
  rw [List.take_append_eq_append_take]
  have h44 : (49 : Nat) - 5 = 44 := rfl
  rw [h44, Nat.sub_eq_zero_of_le ha]
  simp

/-- C9: the three snprintf calls truncate to their buffers, so no
identifier overflows them (at most 49, 49 and 99 bytes plus NUL are
written); whenever the full path /tmp/{identifier}/data together with
its NUL exceeds the 50-byte buffer the stored path is silently
truncated to the first 49 bytes; and two distinct identifiers at least
44 bytes long agreeing on their first 44 bytes produce the same stored
data-directory path. -/
theorem C9_snprintf_bounds_truncation_collision :
    (∀ db : CStr, (arg_path db).length ≤ 49 ∧ (path_to_db db).length ≤ 49 ∧
      (untar db).length ≤ 99) ∧
    (∀ db : CStr, 49 < (tmpHead ++ db ++ dataTail).length →
      arg_path db ≠ tmpHead ++ db ++ dataTail ∧
      arg_path db = (tmpHead ++ db ++ dataTail).take 49) ∧
    (∀ a b : CStr, a ≠ b → 44 ≤ a.length → 44 ≤ b.length →
      a.take 44 = b.take 44 → arg_path a = arg_path b) := by
  refine ⟨?_, ?_, ?_⟩
  · intro db
    refine ⟨?_, ?_, ?_⟩ <;>
      simp [arg_path, path_to_db, untar, snprintfL]
  · intro db h
    refine ⟨?_, rfl⟩
    intro heq
    have hlen := congrArg List.length heq
    simp only [arg_path, snprintfL, List.length_take] at hlen
    omega
  · intro a b _hne ha hb hagree
    rw [arg_path_long a ha, arg_path_long b hb, hagree]

/-- C9 witness: a 45-byte identifier is truncated, and the two concrete
colliding identifiers yield the same path; all three buffers stay in
bounds on the truncated identifier. -/
theorem C9_snprintf_bounds_truncation_collision_witness :
    (arg_path longId).length ≤ 49 ∧
    arg_path longId ≠ tmpHead ++ longId ++ dataTail ∧
    arg_path collideA = arg_path collideB :=
  ⟨(C9_snprintf_bounds_truncation_collision.1 longId).1,
   (C9_snprintf_bounds_truncation_collision.2.1 longId (by decide)).1,
   C9_snprintf_bounds_truncation_collision.2.2 collideA collideB
     (by decide) (by decide) (by decide) (by decide)⟩

/-! ## Claims -/

/-- C1, as stated, is false on the code: fuzzer_exit does not reset the
username pointer after pfree, so a state in which identity resolution
completed and the hook is invoked twice releases the string twice, not
exactly once. -/
theorem C1_double_free_counterexample :
    (fuzzer_exit (fuzzer_exit cexState)).freed =
      ["postgres".toList, "postgres".toList] ∧
    (fuzzer_exit (fuzzer_exit cexState)).freed.count "postgres".toList ≠ 1 := by
  exact ⟨rfl, by decide⟩

/-- C1 (amended): each single invocation of the exit hook releases the
identity string exactly once when it is set, and the hook is a no-op
when identity resolution never completed (username still unset); the
hook leaves the pointer set, so a further invocation would release the
string again. -/
theorem C1_exit_hook_release_amended (s : PgState) :
    (s.username = none → fuzzer_exit s = s) ∧
    (∀ p, s.username = some p →
      (fuzzer_exit s).freed = s.freed ++ [p] ∧
      (fuzzer_exit s).username = some p) := by
  constructor
  · intro h
    simp [fuzzer_exit, h]
  · intro p h
    simp [fuzzer_exit, h, pfree]

/-- C1 witness: the amended statement at the empty state and at a state
with a resolved identity. -/
theorem C1_exit_hook_release_amended_witness :
    fuzzer_exit initState = initState ∧
    (fuzzer_exit cexState).freed = [] ++ ["postgres".toList] :=
  ⟨(C1_exit_hook_release_amended initState).1 rfl,
   ((C1_exit_hook_release_amended cexState).2 "postgres".toList rfl).1⟩

/-- C2: every run that returns executed the Global State Initializer
chain in strict source order (memory-arena init, standalone marking,
bootstrap processing mode, configuration-registry defaults, argument
application, configuration-file loading), and the memory-arena
initialization precedes every dynamic allocation of the bootstrap. -/
theorem C2_global_state_chain_order (env : Env) (db : CStr) (r : Int)
    (tr : List Ev) (s : PgState)
    (h : FuzzerInitializeRun env db = RunResult.returned r tr s) :
    evIdx Ev.memoryContextInit tr < evIdx Ev.initStandaloneProcess tr ∧
    evIdx Ev.initStandaloneProcess tr <
      evIdx (Ev.setProcessingMode ProcessingMode.InitProcessing) tr ∧
    evIdx (Ev.setProcessingMode ProcessingMode.InitProcessing) tr <
      evIdx Ev.initializeGUCOptions tr ∧
    evIdx Ev.initializeGUCOptions tr < evIdx Ev.processPostgresSwitches tr ∧
    evIdx Ev.processPostgresSwitches tr < evIdx Ev.selectConfigFiles tr ∧
    evIdx Ev.selectConfigFiles tr < tr.length ∧
    (∀ e ∈ tr, isAllocEv e = true → evIdx Ev.memoryContextInit tr < evIdx e tr) := by
  obtain ⟨-, htr, -⟩ := run_returned_char env db r tr s h
  subst htr
  decide

/-- C2 witness: the chain order on the concrete successful run. -/
theorem C2_global_state_chain_order_witness :
    FuzzerInitializeRun env0 db0 =
      RunResult.returned 0 stdTrace (stdStateFor env0 db0) ∧
    evIdx Ev.memoryContextInit stdTrace < evIdx Ev.initStandaloneProcess stdTrace :=
  ⟨rfl, (C2_global_state_chain_order env0 db0 0 stdTrace (stdStateFor env0 db0) rfl).1⟩

/-- C4: after a successful bootstrap the row-description arena is a
child of the top-level arena, distinct from the message arena (which is
likewise a child of the top-level arena), it was selected as the
current arena by the switch immediately following its creation, its
buffer was initialized immediately afterwards, and that buffer is
pre-sized (capacity 1024) with zero accumulated length, allocated
inside the row-description arena. -/
theorem C4_row_description_context_setup (env : Env) (db : CStr) (r : Int)
    (tr : List Ev) (s : PgState)
    (h : FuzzerInitializeRun env db = RunResult.returned r tr s) :
    (MCtx.RowDescriptionContext, some MCtx.TopMemoryContext) ∈ s.contexts ∧
    (MCtx.MessageContext, some MCtx.TopMemoryContext) ∈ s.contexts ∧
    MCtx.RowDescriptionContext ≠ MCtx.MessageContext ∧
    s.rowDescriptionBuf =
      some { len := 0, maxlen := 1024, ctx := MCtx.RowDescriptionContext } ∧
    curAfter (tr.take
        (evIdx (Ev.memoryContextSwitchTo MCtx.RowDescriptionContext) tr + 1)) =
      some MCtx.RowDescriptionContext ∧
    evIdx (Ev.memoryContextSwitchTo MCtx.RowDescriptionContext) tr =
      evIdx (Ev.allocSetContextCreate MCtx.RowDescriptionContext) tr + 1 ∧
    evIdx Ev.initRowDescriptionBuf tr =
      evIdx (Ev.allocSetContextCreate MCtx.RowDescriptionContext) tr + 2 := by
  obtain ⟨-, htr, hs⟩ := run_returned_char env db r tr s h
  subst htr
  subst hs
  exact ⟨by simp [stdStateFor], by simp [stdStateFor], by decide, rfl,
    by decide, by decide, by decide⟩

/-- C4 witness: the concrete successful run. -/
theorem C4_row_description_context_setup_witness :
    FuzzerInitializeRun env0 db0 =
      RunResult.returned 0 stdTrace (stdStateFor env0 db0) ∧
    (stdStateFor env0 db0).rowDescriptionBuf =
      some { len := 0, maxlen := 1024, ctx := MCtx.RowDescriptionContext } :=
  ⟨rfl, (C4_row_description_context_setup env0 db0 0 stdTrace
      (stdStateFor env0 db0) rfl).2.2.2.1⟩

/-- C5: the processing mode is set to InitProcessing during the Global
State Initializer and is never NormalProcessing at any point up to and
including the completion of session initialization (InitPostgres); in
every run that returns, the transition to NormalProcessing happens
strictly after InitPostgres and the final mode is NormalProcessing. -/
theorem C5_processing_mode_transition (env : Env) (db : CStr) :
    (∀ k, k ≤ evIdx Ev.initPostgres (traceOf env db) + 1 →
      modeAfter ((traceOf env db).take k) ≠ ProcessingMode.NormalProcessing) ∧
    (∀ r tr s, FuzzerInitializeRun env db = RunResult.returned r tr s →
      evIdx (Ev.setProcessingMode ProcessingMode.InitProcessing) tr <
        evIdx Ev.initPostgres tr ∧
      evIdx Ev.initPostgres tr <
        evIdx (Ev.setProcessingMode ProcessingMode.NormalProcessing) tr ∧
      evIdx (Ev.setProcessingMode ProcessingMode.NormalProcessing) tr < tr.length ∧
      modeAfter tr = ProcessingMode.NormalProcessing) := by
  constructor
  · rcases traceOf_cases env db with h | h | h | h | h <;> rw [h] <;> decide
  · intro r tr s h
    obtain ⟨-, htr, -⟩ := run_returned_char env db r tr s h
    subst htr
    decide

/-- C5 witness: on the concrete successful run, the mode is still not
normal when session initialization completes, and the final mode is
normal. -/
theorem C5_processing_mode_transition_witness :
    modeAfter ((traceOf env0 db0).take 18) ≠ ProcessingMode.NormalProcessing ∧
    modeAfter stdTrace = ProcessingMode.NormalProcessing :=
  ⟨(C5_processing_mode_transition env0 db0).1 18 (by decide),
   ((C5_processing_mode_transition env0 db0).2 0 stdTrace
      (stdStateFor env0 db0) rfl).2.2.2⟩

/-- C6: in every run that returns, the start timestamp is captured by
exactly one step, the recorded value is the capture instant (event
index, a strictly monotone clock), and that instant lies strictly after
the completion of every Data Directory Binder step (directory
validation, lock acquisition, control-file load, backend-slot
computation) and after session initialization. -/
theorem C6_start_timestamp_once_after_binder (env : Env) (db : CStr) (r : Int)
    (tr : List Ev) (s : PgState)
    (h : FuzzerInitializeRun env db = RunResult.returned r tr s) :
    tr.count Ev.setPgStartTime = 1 ∧
    s.pgStartTime = some (evIdx Ev.setPgStartTime tr) ∧
    evIdx Ev.checkDataDir tr < evIdx Ev.setPgStartTime tr ∧
    evIdx Ev.createDataDirLockFile tr < evIdx Ev.setPgStartTime tr ∧
    evIdx Ev.localProcessControlFile tr < evIdx Ev.setPgStartTime tr ∧
    evIdx Ev.initializeMaxBackends tr + 1 < evIdx Ev.setPgStartTime tr ∧
    evIdx Ev.initPostgres tr < evIdx Ev.setPgStartTime tr := by
  obtain ⟨-, htr, hs⟩ := run_returned_char env db r tr s h
  subst htr
  subst hs
  exact ⟨by decide, rfl, by decide, by decide, by decide, by decide, by decide⟩

/-- C6 witness: the concrete successful run. -/
theorem C6_start_timestamp_once_after_binder_witness :
    FuzzerInitializeRun env0 db0 =
      RunResult.returned 0 stdTrace (stdStateFor env0 db0) ∧
    stdTrace.count Ev.setPgStartTime = 1 :=
  ⟨rfl, (C6_start_timestamp_once_after_binder env0 db0 0 stdTrace
      (stdStateFor env0 db0) rfl).1⟩

/-- C7: every execution of FuzzerInitialize that returns (rather than
terminating the process on a failure path) returns the status 0. -/
theorem C7_returns_zero (env : Env) (db : CStr) (r : Int) (tr : List Ev)
    (s : PgState)
    (h : FuzzerInitializeRun env db = RunResult.returned r tr s) : r = 0 :=
  (run_returned_char env db r tr s h).1

/-- C7 witness: the concrete successful run returns 0. -/
theorem C7_returns_zero_witness :
    FuzzerInitializeRun env0 db0 =
      RunResult.returned 0 stdTrace (stdStateFor env0 db0) ∧ (0 : Int) = 0 :=
  ⟨rfl, C7_returns_zero env0 db0 0 stdTrace (stdStateFor env0 db0) rfl⟩

/-- C8: when FuzzerInitialize returns, the current arena is the
top-level arena: the switch back to TopMemoryContext follows the
temporary selection of the row-description arena, the selection
computed over the whole trace is TopMemoryContext, and no step after
the switch back changes the current-arena selection. -/
theorem C8_top_context_current_on_return (env : Env) (db : CStr) (r : Int)
    (tr : List Ev) (s : PgState)
    (h : FuzzerInitializeRun env db = RunResult.returned r tr s) :
    s.cur = some MCtx.TopMemoryContext ∧
    evIdx (Ev.memoryContextSwitchTo MCtx.RowDescriptionContext) tr <
      evIdx (Ev.memoryContextSwitchTo MCtx.TopMemoryContext) tr ∧
    curAfter tr = some MCtx.TopMemoryContext ∧
    (∀ e ∈ tr.drop
        (evIdx (Ev.memoryContextSwitchTo MCtx.TopMemoryContext) tr + 1),
      isSwitchEv e = false) := by
  obtain ⟨-, htr, hs⟩ := run_returned_char env db r tr s h
  subst htr
  subst hs
  exact ⟨rfl, by decide, by decide, by decide⟩

/-- C8 witness: the concrete successful run. -/
theorem C8_top_context_current_on_return_witness :
    FuzzerInitializeRun env0 db0 =
      RunResult.returned 0 stdTrace (stdStateFor env0 db0) ∧
    (stdStateFor env0 db0).cur = some MCtx.TopMemoryContext :=
  ⟨rfl, (C8_top_context_current_on_return env0 db0 0 stdTrace
      (stdStateFor env0 db0) rfl).1⟩

/-- C10: the exit hook is registered only as the final step before the
successful return: every fatally-terminated run ends with no hook
registered and no registration step in its trace, while every returning
run has exactly the fuzzer_exit hook registered, by a registration step
that is the last step of the trace and occurs exactly once. -/
theorem C10_atexit_registered_last (env : Env) (db : CStr) :
    (∀ tr s, FuzzerInitializeRun env db = RunResult.exited tr s →
      s.exitHooks = [] ∧ Ev.atexitRegister ∉ tr) ∧
    (∀ r tr s, FuzzerInitializeRun env db = RunResult.returned r tr s →
      s.exitHooks = [Hook.fuzzerExit] ∧
      tr.getLast? = some Ev.atexitRegister ∧
      tr.count Ev.atexitRegister = 1) := by
  constructor
  · intro tr s h
    obtain ⟨htr, hh⟩ := run_exited_char env db tr s h
    refine ⟨hh, ?_⟩
    rcases htr with h1 | h1 | h1 | h1 <;> subst h1 <;> decide
  · intro r tr s h
    obtain ⟨-, htr, hs⟩ := run_returned_char env db r tr s h
    subst htr
    subst hs
    exact ⟨rfl, by decide, by decide⟩

/-- C10 witness: a fatally-exiting run registers nothing; the concrete
successful run registers the hook as its final step. -/
theorem C10_atexit_registered_last_witness :
    Ev.atexitRegister ∉ failTraceUser ∧
    stdTrace.getLast? = some Ev.atexitRegister :=
  ⟨((C10_atexit_registered_last
      { userName := none, dataDirValid := true, lockFree := true, sessionOk := true }
      db0).1 failTraceUser
      ({ initState with
          progname := some "postgres".toList
        , contexts := [ (MCtx.TopMemoryContext, none)
                      , (MCtx.ErrorContext, some MCtx.TopMemoryContext) ]
        , cur := some MCtx.TopMemoryContext }) rfl).2,
   ((C10_atexit_registered_last env0 db0).2 0 stdTrace
      (stdStateFor env0 db0) rfl).2.1⟩

end PGFuzz
